import Mathlib

/-!
# finelistener / miniaudio-loopback: capture callback and control loop

A shallow embedding of `src/miniaudio-loopback/src/main.cpp`:

* `dataCallback` (the real-time capture callback) as a function on the shared
  state `World` (the session's `AppState` plus the global `g_shouldQuit`);
* the control loop of `main` as a function from an explicit environment
  (results of the miniaudio calls, clock readings, and the activity of the
  other threads between two observations of the main thread) to the sequence
  of calls and events `main` performs and its exit status.

Machine integers are `Nat`/`Int` with explicit wrap-around at the width of the
C++ type.  Values of `float`/`double` variables are the rationals they denote;
every floating-point operation is the exact operation followed by IEEE-754
round-to-nearest-even at the precision of the C++ type (each operation is
rounded on its own, no fused multiply-add).

An invocation of `dataCallback` is taken as one step relative to the loads of
the main thread: `Tick` lets such steps fall before each load of the control
loop, which yields every outcome the two stores of the failure branch
(`lastError`, then `g_shouldQuit`) can produce for the loop's two checks.
-/

namespace MiniaudioLoopback

/-! ## Floating point -/

/-- Nearest integer to a rational, ties to the even integer. -/
def roundHalfEven (x : ℚ) : ℤ :=
  let f : ℤ := ⌊x⌋
  let r : ℚ := x - f
  if r < 1 / 2 then f
  else if 1 / 2 < r then f + 1
  else if f % 2 = 0 then f else f + 1

/-- Round-to-nearest-even to a binary significand of `prec` bits.  The
exponent range is not bounded: every value `main.cpp` computes stays far
inside the normal range of its type. -/
def roundTo (prec : ℕ) (q : ℚ) : ℚ :=
  if q = 0 then 0
  else
    let s : ℤ := (prec : ℤ) - 1 - Int.log 2 |q|
    (roundHalfEven (q * (2 : ℚ) ^ s) : ℚ) / (2 : ℚ) ^ s

/-- Rounding to `double` (binary64). -/
def toDouble (q : ℚ) : ℚ := roundTo 53 q

/-- Rounding to `float` (binary32), as done by `static_cast<float>`. -/
def toFloat (q : ℚ) : ℚ := roundTo 24 q

/-- The `double` sum `a + b`. -/
def fadd (a b : ℚ) : ℚ := toDouble (a + b)

/-- The `double` product `a * b`. -/
def fmul (a b : ℚ) : ℚ := toDouble (a * b)

/-- The `double` quotient `a / b`. -/
def fdiv (a b : ℚ) : ℚ := toDouble (a / b)

/-- The call `std::sqrt(x)` on a `double`: the correctly rounded square root.
With `r = ⌊√x · 2^k⌋` of at least 55 bits, `√x` is either `r / 2^k` exactly
or lies strictly between `r / 2^k` and `(r + 1) / 2^k`, which the sticky bit
records.  The argument is never negative in `main.cpp`. -/
def fsqrt (x : ℚ) : ℚ :=
  if x ≤ 0 then 0
  else
    let k : ℕ := (110 - Int.log 2 x).toNat
    let y : ℚ := x * (4 : ℚ) ^ k
    let r : ℕ := Nat.sqrt ⌊y⌋₊
    let sticky : ℕ := if ((r * r : ℕ) : ℚ) = y then 0 else 1
    toDouble (((2 * r + sticky : ℕ) : ℚ) / (2 : ℚ) ^ (k + 1))

/-! ## Data model -/

/-- The result code `MA_SUCCESS` of miniaudio.h. -/
def MA_SUCCESS : Int := 0

/-- The constant `kDefaultSampleRate`. -/
def kDefaultSampleRate : Nat := 16000

/-- The constant `kDefaultChannels`. -/
def kDefaultChannels : Nat := 1

/-- The constant `kDefaultBitDepth`. -/
def kDefaultBitDepth : Nat := 16

/-- The struct `Options`, as `parseArgs` fills it; `deviceIndex` is an `int`,
the last three fields are `ma_uint32`. -/
structure Options where
  listDevices : Bool := false
  outputPath : String := ""
  deviceId : String := ""
  deviceIndex : Int := -1
  sampleRate : Nat := kDefaultSampleRate
  channels : Nat := kDefaultChannels
  bitDepth : Nat := kDefaultBitDepth

/-- The struct `DeviceChoice`; the `ma_device_id` payload is not modelled. -/
structure DeviceChoice where
  hasId : Bool := false
  hasIndex : Bool := false
  index : Int := -1

/-- The Frame Sink as seen by the callback: the frame counts handed to
`ma_encoder_write_pcm_frames`, oldest first. -/
structure ma_encoder where
  writes : List Nat := []

/-- The struct `AppState`.  `totalFrames`, `bytesWritten` are `ma_uint64`,
`rms`, `peak` are `float`, `clipped`, `lastError` are `int`, and
`sampleRate`, `channels`, `bytesPerFrame` are `ma_uint32`. -/
structure AppState where
  encoder : ma_encoder := {}
  totalFrames : Nat := 0
  bytesWritten : Nat := 0
  rms : ℚ := 0
  peak : ℚ := 0
  clipped : Int := 0
  lastError : Int := MA_SUCCESS
  sampleRate : Nat := kDefaultSampleRate
  channels : Nat := kDefaultChannels
  bytesPerFrame : Nat := 2

/-- Everything the two threads share: the session's `AppState` and the
global `g_shouldQuit`. -/
structure World where
  state : AppState := {}
  g_shouldQuit : Bool := false

/-- The handler `onSignal`. -/
def onSignal (w : World) : World := { w with g_shouldQuit := true }

/-! ## The capture callback -/

/-- A `ma_device` as far as `dataCallback` reads it: `pUserData` is `true`
when the pointer is non-null (it then points at the session's `AppState`). -/
structure ma_device where
  pUserData : Bool := true

/-- The arguments of one `dataCallback` invocation.  `device` and `pInput`
are `none` for a null pointer; `pInput` views interleaved 16-bit signed
samples; `frameCount` is a `ma_uint32`; `writeResult` is what
`ma_encoder_write_pcm_frames` returns for this batch when it is called. -/
structure CallbackArgs where
  device : Option ma_device := some {}
  pInput : Option (List Int) := none
  frameCount : Nat := 0
  writeResult : Int := MA_SUCCESS

/-- The call `ma_encoder_write_pcm_frames(&encoder, pInput, frameCount, nullptr)`;
its result is supplied by the environment. -/
def ma_encoder_write_pcm_frames (encoder : ma_encoder) (frameCount : Nat) (result : Int) :
    ma_encoder × Int :=
  ({ writes := encoder.writes ++ [frameCount] }, result)

/-- The locals `sumSquares`, `peak`, `clipped` of the analysis loop. -/
structure LevelAcc where
  sumSquares : ℚ := 0
  peak : Int := 0
  clipped : Bool := false

/-- One iteration of the analysis loop of `dataCallback`, for `samples[i] = sample`. -/
def levelStep (acc : LevelAcc) (sample : Int) : LevelAcc :=
  let absValue : Int := if sample < 0 then -sample else sample
  let clipped : Bool := if absValue ≥ 32767 then true else acc.clipped
  let peak : Int := if absValue > acc.peak then absValue else acc.peak
  let normalized : ℚ := fdiv (toDouble (sample : ℚ)) 32768
  { sumSquares := fadd acc.sumSquares (fmul normalized normalized)
    peak := peak
    clipped := clipped }

/-- The loop `for (i = ..; i < sampleCount; i += 1)` of `dataCallback`, with
`n` iterations left and the next index `i`. -/
def levelLoop (samples : List Int) : Nat → Nat → LevelAcc → LevelAcc
  | 0, _, acc => acc
  | n + 1, i, acc => levelLoop samples n (i + 1) (levelStep acc (samples.getD i 0))

/-- The function `dataCallback`. -/
def dataCallback (w : World) (a : CallbackArgs) : World :=
  match a.device, a.pInput with
  | none, _ => w
  | some _, none => w
  | some device, some samples =>
    if !device.pUserData then w
    else
      let state := w.state
      let (encoder, result) := ma_encoder_write_pcm_frames state.encoder a.frameCount a.writeResult
      if result ≠ MA_SUCCESS then
        { state := { state with encoder := encoder, lastError := result }
          g_shouldQuit := true }
      else
        let frames : Nat := a.frameCount
        let state : AppState :=
          { state with
            encoder := encoder
            totalFrames := (state.totalFrames + frames) % 2 ^ 64
            bytesWritten := (state.bytesWritten + frames * state.bytesPerFrame % 2 ^ 64) % 2 ^ 64 }
        let sampleCount : Nat := frames * state.channels % 2 ^ 64
        if sampleCount = 0 then { w with state := state }
        else
          let acc := levelLoop samples sampleCount 0 {}
          let rms : ℚ := fsqrt (fdiv acc.sumSquares (toDouble (sampleCount : ℚ)))
          let peakNorm : ℚ := fdiv (toDouble (acc.peak : ℚ)) 32768
          { w with
            state :=
              { state with
                rms := toFloat rms
                peak := toFloat peakNorm
                clipped := if acc.clipped then 1 else 0 } }

/-- A sequence of `dataCallback` invocations, in order. -/
def runCallbacks (w : World) (invocations : List CallbackArgs) : World :=
  invocations.foldl dataCallback w

/-! ## The control loop and `main` -/

/-- The text handed to `emitError`: the fixed prefix, with the result code
or index that completes it. -/
inductive ErrorMessage where
  /-- The text "Failed to init audio context: ...". -/
  | contextInit (result : Int)
  /-- The text "Invalid device index: ...". -/
  | invalidDeviceIndex (index : Int)
  /-- The text "Failed to open output: ...". -/
  | openOutput (result : Int)
  /-- The text "Failed to init loopback device: ...". -/
  | deviceInit (result : Int)
  /-- The text "Failed to start loopback device: ...". -/
  | deviceStart (result : Int)
  /-- The text "Encoder error: ...". -/
  | encoder (result : Int)
  deriving DecidableEq

/-- One JSON line written to stdout by `emitJsonLine`. -/
inductive Event where
  | format (sampleRateHz channels : Nat)
  | progress (durationMs : Int) (bytesWritten : Nat)
  | level (rms peak : ℚ) (clipped : Bool)
  | error (message : ErrorMessage)
  deriving DecidableEq

/-- What `main` does that is visible outside it, in program order: the
miniaudio calls (with the result the environment gave), the diagnostics on
stderr and the events on stdout. -/
inductive Call where
  | stderr
  | listDevices (result : Int)
  | ma_context_init (result : Int)
  | ma_context_uninit
  | resolveDeviceIdFromIndex (index : Int) (result : Int)
  | ma_encoder_init_file (result : Int)
  | ma_encoder_uninit
  | ma_device_init (result : Int)
  | ma_device_uninit
  | ma_device_start (result : Int)
  | ma_device_stop
  | emitJsonLine (e : Event)
  deriving DecidableEq

/-- The function `emitError`. -/
def emitError (message : ErrorMessage) : Call := Call.emitJsonLine (Event.error message)

/-- Something another thread does to the shared state: the backend invokes
`dataCallback`, or a SIGINT/SIGTERM runs `onSignal`. -/
inductive EnvEvent where
  | callback (args : CallbackArgs)
  | signal

/-- The effect of the other threads' activity on the shared state. -/
def applyEnv (w : World) (events : List EnvEvent) : World :=
  events.foldl
    (fun w e =>
      match e with
      | EnvEvent.callback args => dataCallback w args
      | EnvEvent.signal => onSignal w)
    w

/-- One pass through the body of the `while` loop of `main`, as the
environment shapes it: what the other threads did before the load of
`g_shouldQuit` (this includes the 20 ms sleep that ended the previous pass),
between that load and the load of `lastError`, and between that load and the
telemetry loads; and the reading of `clock::now()` in nanoseconds. -/
structure Tick where
  beforeQuitCheck : List EnvEvent := []
  beforeErrorCheck : List EnvEvent := []
  beforeTelemetry : List EnvEvent := []
  now : Int := 0

/-- What the control loop leaves behind: the events it emitted, the shared
state, and whether it was left (`false`: still polling when the observed
schedule ends). -/
structure LoopResult where
  calls : List Call
  world : World
  exited : Bool

/-- The value `static_cast<long long>(durationMs)` of the progress event. -/
def durationMs (sampleRate frames : Nat) : Int :=
  let d : ℚ :=
    if sampleRate > 0 then
      fmul (fdiv (toDouble (frames : ℚ)) (toDouble (sampleRate : ℚ))) 1000
    else 0
  Int.toNat ⌊d⌋

/-- The loop `while (!g_shouldQuit.load()) { ... }` of `main`. -/
def controlLoop (options : Options) :
    List Tick → World → (lastProgressAt lastLevelAt : Int) → LoopResult
  | [], w, _, _ => { calls := [], world := w, exited := false }
  | t :: ticks, w, lastProgressAt, lastLevelAt =>
    let w := applyEnv w t.beforeQuitCheck
    if w.g_shouldQuit then { calls := [], world := w, exited := true }
    else
      let w := applyEnv w t.beforeErrorCheck
      if w.state.lastError ≠ MA_SUCCESS then
        { calls := [emitError (ErrorMessage.encoder w.state.lastError)], world := w, exited := true }
      else
        let w := applyEnv w t.beforeTelemetry
        let now := t.now
        let progress : Bool := now - lastProgressAt ≥ 300000000
        let level : Bool := now - lastLevelAt ≥ 250000000
        let rest :=
          controlLoop options ticks w (if progress then now else lastProgressAt)
            (if level then now else lastLevelAt)
        { rest with
          calls :=
            (if progress then
              [Call.emitJsonLine
                (Event.progress (durationMs options.sampleRate w.state.totalFrames)
                  w.state.bytesWritten)]
            else [])
            ++ (if level then
              [Call.emitJsonLine (Event.level w.state.rms w.state.peak (w.state.clipped != 0))]
            else [])
            ++ rest.calls }

/-- The function `resolveDeviceChoice`; `utf8ToWasapiId` is the outcome of
the Windows conversion of `options.deviceId`. -/
def resolveDeviceChoice (options : Options) (utf8ToWasapiId : Bool) : DeviceChoice :=
  let choice : DeviceChoice := {}
  let choice :=
    if options.deviceId ≠ "" then
      if utf8ToWasapiId then { choice with hasId := true } else choice
    else choice
  if options.deviceIndex ≥ 0 then
    { choice with hasIndex := true, index := options.deviceIndex }
  else choice

/-- Everything `main` takes from outside: the outcome of `parseArgs`
(`none` when it returns false), the result of each miniaudio call, the two
initial clock readings, the schedule of the control loop, and what the
callback thread still does between the exit of the loop and the return of
`ma_device_stop`. -/
structure Env where
  parseArgs : Option Options := some { outputPath := "out.wav" }
  listDevices : Int := MA_SUCCESS
  ma_context_init : Int := MA_SUCCESS
  utf8ToWasapiId : Bool := true
  resolveDeviceIdFromIndex : Int := MA_SUCCESS
  ma_encoder_init_file : Int := MA_SUCCESS
  ma_device_init : Int := MA_SUCCESS
  ma_device_start : Int := MA_SUCCESS
  lastProgressAt : Int := 0
  lastLevelAt : Int := 0
  ticks : List Tick := []
  beforeStop : List EnvEvent := []

/-- A run of `main`: its calls and events in program order, its exit status
(`none` while the control loop is still polling at the end of the observed
schedule), and the shared state it leaves. -/
structure Run where
  calls : List Call
  exit : Option Int
  world : World := {}

/-- The function `main`. -/
def main (env : Env) : Run :=
  match env.parseArgs with
  | none => { calls := [Call.stderr], exit := some 1 }
  | some options =>
    if options.listDevices then
      if env.listDevices ≠ MA_SUCCESS then
        { calls := [Call.listDevices env.listDevices, Call.stderr], exit := some 1 }
      else { calls := [Call.listDevices env.listDevices], exit := some 0 }
    else if options.bitDepth ≠ 16 then { calls := [Call.stderr], exit := some 1 }
    else if env.ma_context_init ≠ MA_SUCCESS then
      { calls :=
          [Call.ma_context_init env.ma_context_init,
            emitError (ErrorMessage.contextInit env.ma_context_init)]
        exit := some 1 }
    else
      let choice := resolveDeviceChoice options env.utf8ToWasapiId
      let resolves : Bool := !choice.hasId && choice.hasIndex
      let pre : List Call :=
        Call.ma_context_init env.ma_context_init ::
          (if resolves then
            [Call.resolveDeviceIdFromIndex choice.index env.resolveDeviceIdFromIndex]
          else [])
      if resolves && env.resolveDeviceIdFromIndex ≠ MA_SUCCESS then
        { calls :=
            pre ++ [Call.ma_context_uninit, emitError (ErrorMessage.invalidDeviceIndex choice.index)]
          exit := some 1 }
      else
        let state : AppState :=
          { sampleRate := options.sampleRate
            channels := options.channels
            bytesPerFrame := options.channels * (options.bitDepth / 8) % 2 ^ 32 }
        let pre := pre ++ [Call.ma_encoder_init_file env.ma_encoder_init_file]
        if env.ma_encoder_init_file ≠ MA_SUCCESS then
          { calls :=
              pre ++ [Call.ma_context_uninit,
                emitError (ErrorMessage.openOutput env.ma_encoder_init_file)]
            exit := some 1 }
        else
          let pre := pre ++ [Call.ma_device_init env.ma_device_init]
          if env.ma_device_init ≠ MA_SUCCESS then
            { calls :=
                pre ++ [Call.ma_encoder_uninit, Call.ma_context_uninit,
                  emitError (ErrorMessage.deviceInit env.ma_device_init)]
              exit := some 1 }
          else
            let pre :=
              pre ++ [Call.emitJsonLine (Event.format options.sampleRate options.channels),
                Call.ma_device_start env.ma_device_start]
            if env.ma_device_start ≠ MA_SUCCESS then
              { calls :=
                  pre ++ [Call.ma_device_uninit, Call.ma_encoder_uninit, Call.ma_context_uninit,
                    emitError (ErrorMessage.deviceStart env.ma_device_start)]
                exit := some 1 }
            else
              let loop :=
                controlLoop options env.ticks { state := state } env.lastProgressAt
                  env.lastLevelAt
              if loop.exited then
                { calls :=
                    pre ++ loop.calls ++ [Call.ma_device_stop, Call.ma_device_uninit,
                      Call.ma_encoder_uninit, Call.ma_context_uninit]
                  exit := some 0
                  world := applyEnv loop.world env.beforeStop }
              else { calls := pre ++ loop.calls, exit := none, world := loop.world }

/-- The number of `error` events among the calls of a run. -/
def errorEvents (calls : List Call) : Nat :=
  (calls.filter
    (fun c =>
      match c with
      | Call.emitJsonLine (Event.error _) => true
      | _ => false)).length

/-- Whether an invocation gets past the null checks at the top of
`dataCallback` and so calls `ma_encoder_write_pcm_frames`. -/
def reachesSink (a : CallbackArgs) : Bool :=
  match a.device, a.pInput with
  | some device, some _ => device.pUserData
  | _, _ => false

/-! ## Scenarios -/

/-- A batch of 160 frames of mono silence, as the backend delivers it. -/
def silence : CallbackArgs := { pInput := some (List.replicate 160 0), frameCount := 160 }

/-- A default session (16000 Hz, mono, 16 bit) in which every setup call
succeeds, the first batch is written, and the write of the second batch
fails with code `-1` while the control loop sleeps at the end of its second
pass. -/
def sinkFailureEnv : Env :=
  { ticks :=
      [{ beforeQuitCheck := [EnvEvent.callback silence], now := 20000000 },
        { now := 40000000 },
        { beforeQuitCheck := [EnvEvent.callback { silence with writeResult := -1 }],
          now := 60000000 }] }

/-- A default session in which two batches are written and a SIGINT then
arrives while the control loop sleeps. -/
def cancelEnv : Env :=
  { ticks :=
      [{ beforeQuitCheck := [EnvEvent.callback silence], now := 20000000 },
        { beforeQuitCheck := [EnvEvent.callback silence], now := 40000000 },
        { beforeQuitCheck := [EnvEvent.signal], now := 60000000 }] }

/-- A default session's callback traffic that carries the byte count past
`2 ^ 64`: `2 ^ 31 + 1` accepted batches of `2 ^ 32 - 1` frames of mono
silence. -/
def longSession : List CallbackArgs :=
  List.replicate (2 ^ 31 + 1)
    { pInput := some (List.replicate (2 ^ 32 - 1) 0), frameCount := 2 ^ 32 - 1 }

/-! ## Rounding lemmas -/

theorem roundHalfEven_intCast (n : ℤ) : roundHalfEven (n : ℚ) = n := by
  unfold roundHalfEven
  simp

theorem roundTo_zero (prec : ℕ) : roundTo prec 0 = 0 := by
  simp [roundTo]

/-- A dyadic rational whose numerator fits in `prec` bits is representable:
rounding returns it unchanged. -/
theorem roundTo_exact (prec : ℕ) (m : ℤ) (e : ℕ) (hm : |m| < 2 ^ prec) :
    roundTo prec ((m : ℚ) / 2 ^ e) = (m : ℚ) / 2 ^ e := by
  by_cases hm0 : m = 0
  · subst hm0
    simp [roundTo]
  have hq : (m : ℚ) / 2 ^ e ≠ 0 := by
    have : (m : ℚ) ≠ 0 := by exact_mod_cast hm0
    positivity
  have hpos : (0 : ℚ) < |(m : ℚ) / 2 ^ e| := abs_pos.2 hq
  have hL := Int.zpow_log_le_self (b := 2) (by norm_num) hpos
  have habs : |(m : ℚ) / 2 ^ e| = (|m| : ℤ) / 2 ^ e := by
    rw [abs_div, abs_pow, abs_two, Int.cast_abs]
  have hlt : |(m : ℚ) / 2 ^ e| < (2 : ℚ) ^ ((prec : ℤ) - e) := by
    rw [habs, zpow_sub₀ (by norm_num : (2 : ℚ) ≠ 0), zpow_natCast, zpow_natCast]
    have h2 : ((|m| : ℤ) : ℚ) < 2 ^ prec := by exact_mod_cast hm
    exact div_lt_div_of_pos_right h2 (by positivity)
  have hlog : Int.log 2 |(m : ℚ) / 2 ^ e| < (prec : ℤ) - e := by
    have h := lt_of_le_of_lt hL hlt
    have h' : ((2 : ℕ) : ℚ) = 2 := by norm_num
    rw [h'] at h
    exact (zpow_lt_zpow_iff_right₀ (by norm_num : (1 : ℚ) < 2)).1 h
  obtain ⟨k, hk⟩ : ∃ k : ℕ, (prec : ℤ) - 1 - Int.log 2 |(m : ℚ) / 2 ^ e| = e + k :=
    ⟨((prec : ℤ) - 1 - Int.log 2 |(m : ℚ) / 2 ^ e| - e).toNat, by omega⟩
  unfold roundTo
  rw [if_neg hq]
  simp only [hk]
  have hscale : (m : ℚ) / 2 ^ e * (2 : ℚ) ^ ((e : ℤ) + k) = ((m * 2 ^ k : ℤ) : ℚ) := by
    rw [zpow_add₀ (by norm_num : (2 : ℚ) ≠ 0), zpow_natCast, zpow_natCast]
    push_cast
    field_simp
    ring
  rw [hscale, roundHalfEven_intCast, zpow_add₀ (by norm_num : (2 : ℚ) ≠ 0), zpow_natCast,
    zpow_natCast]
  push_cast
  field_simp
  ring

/-- An integer below `2 ^ prec` in absolute value is representable. -/
theorem roundTo_intCast (prec : ℕ) (m : ℤ) (hm : |m| < 2 ^ prec) :
    roundTo prec (m : ℚ) = m := by
  have h := roundTo_exact prec m 0 hm
  simpa using h

theorem toDouble_zero : toDouble 0 = 0 := roundTo_zero 53

theorem toFloat_zero : toFloat 0 = 0 := roundTo_zero 24

theorem fsqrt_zero : fsqrt 0 = 0 := by
  simp [fsqrt]

/-- For a 16-bit magnitude `p`, the steps `static_cast<double>(p) / 32768.0` and
`static_cast<float>(..)` are all exact. -/
theorem toFloat_peakNorm (p : ℤ) (hp : |p| ≤ 32768) :
    toFloat (fdiv (toDouble (p : ℚ)) 32768) = (p : ℚ) / 32768 := by
  have h53 : |p| < 2 ^ 53 := lt_of_le_of_lt hp (by norm_num)
  have h24 : |p| < 2 ^ 24 := lt_of_le_of_lt hp (by norm_num)
  have e : (32768 : ℚ) = 2 ^ 15 := by norm_num
  unfold toFloat fdiv toDouble
  rw [roundTo_intCast 53 p h53, e, roundTo_exact 53 p 15 h53, roundTo_exact 24 p 15 h24]

/-! ## The analysis loop -/

theorem levelLoop_eq_foldl (samples : List Int) (n : Nat) :
    ∀ (i : Nat) (acc : LevelAcc), i + n ≤ samples.length →
      levelLoop samples n i acc = ((samples.drop i).take n).foldl levelStep acc := by
  induction n with
  | zero => intro i acc _; simp [levelLoop]
  | succ n ih =>
    intro i acc h
    have hi : i < samples.length := by omega
    rw [levelLoop, ih (i + 1) _ (by omega), List.drop_eq_getElem_cons hi, List.take_succ_cons,
      List.foldl_cons, List.getD_eq_getElem samples 0 hi]

theorem levelLoop_all (samples : List Int) (acc : LevelAcc) :
    levelLoop samples samples.length 0 acc = samples.foldl levelStep acc := by
  rw [levelLoop_eq_foldl samples samples.length 0 acc (by omega)]
  simp

theorem levelStep_peak (acc : LevelAcc) (s : Int) : (levelStep acc s).peak = max acc.peak |s| := by
  unfold levelStep
  simp only
  have habs : (if s < 0 then -s else s) = |s| := by
    split_ifs with h
    · exact (abs_of_neg h).symm
    · exact (abs_of_nonneg (not_lt.1 h)).symm
  rw [habs]
  split_ifs with h
  · exact (max_eq_right (le_of_lt h)).symm
  · exact (max_eq_left (not_lt.1 h)).symm

theorem levelStep_clipped (acc : LevelAcc) (s : Int) :
    (levelStep acc s).clipped = true ↔ acc.clipped = true ∨ 32767 ≤ |s| := by
  unfold levelStep
  simp only
  have habs : (if s < 0 then -s else s) = |s| := by
    split_ifs with h
    · exact (abs_of_neg h).symm
    · exact (abs_of_nonneg (not_lt.1 h)).symm
  rw [habs]
  split_ifs with h
  · simp [h]
  · simp [h]

theorem foldl_levelStep_peak (l : List Int) :
    ∀ acc : LevelAcc,
      acc.peak ≤ (l.foldl levelStep acc).peak ∧
        (∀ s ∈ l, |s| ≤ (l.foldl levelStep acc).peak) ∧
        ((l.foldl levelStep acc).peak = acc.peak ∨ ∃ s ∈ l, |s| = (l.foldl levelStep acc).peak) := by
  induction l with
  | nil => intro acc; simp
  | cons x xs ih =>
    intro acc
    obtain ⟨h1, h2, h3⟩ := ih (levelStep acc x)
    rw [levelStep_peak] at h1 h3
    simp only [List.foldl_cons, List.mem_cons, forall_eq_or_imp, exists_eq_or_imp]
    refine ⟨le_trans (le_max_left _ _) h1, ⟨le_trans (le_max_right _ _) h1, h2⟩, ?_⟩
    rcases h3 with h3 | h3
    · rcases max_choice acc.peak |x| with hm | hm
      · left; rw [h3, hm]
      · right; left; rw [h3, hm]
    · right; right; exact h3

theorem foldl_levelStep_clipped (l : List Int) :
    ∀ acc : LevelAcc,
      (l.foldl levelStep acc).clipped = true ↔ acc.clipped = true ∨ ∃ s ∈ l, 32767 ≤ |s| := by
  induction l with
  | nil => intro acc; simp
  | cons x xs ih =>
    intro acc
    rw [List.foldl_cons, ih, levelStep_clipped]
    simp only [List.mem_cons, exists_eq_or_imp]
    tauto

theorem levelStep_zero : levelStep {} 0 = {} := by
  simp [levelStep, fadd, fmul, fdiv, toDouble, roundTo_zero]

theorem foldl_levelStep_zeros (l : List Int) (h : ∀ s ∈ l, s = 0) :
    l.foldl levelStep {} = {} := by
  induction l with
  | nil => rfl
  | cons x xs ih =>
    have hx : x = 0 := h x (List.mem_cons_self _ _)
    subst hx
    rw [List.foldl_cons, levelStep_zero]
    exact ih (fun s hs => h s (List.mem_cons_of_mem _ hs))

/-- The callback on a batch that reaches the sink and is accepted by it. -/
theorem dataCallback_accepted (w : World) (a : CallbackArgs) (device : ma_device)
    (samples : List Int) (hdevice : a.device = some device) (huser : device.pUserData = true)
    (hin : a.pInput = some samples) (hok : a.writeResult = MA_SUCCESS)
    (hcount : a.frameCount * w.state.channels % 2 ^ 64 ≠ 0) :
    dataCallback w a =
      { w with
        state :=
          { w.state with
            encoder := { writes := w.state.encoder.writes ++ [a.frameCount] }
            totalFrames := (w.state.totalFrames + a.frameCount) % 2 ^ 64
            bytesWritten :=
              (w.state.bytesWritten + a.frameCount * w.state.bytesPerFrame % 2 ^ 64) % 2 ^ 64
            rms :=
              toFloat (fsqrt (fdiv
                (levelLoop samples (a.frameCount * w.state.channels % 2 ^ 64) 0 {}).sumSquares
                (toDouble ((a.frameCount * w.state.channels % 2 ^ 64 : ℕ) : ℚ))))
            peak :=
              toFloat (fdiv (toDouble
                ((levelLoop samples (a.frameCount * w.state.channels % 2 ^ 64) 0 {}).peak : ℚ))
                32768)
            clipped :=
              if (levelLoop samples (a.frameCount * w.state.channels % 2 ^ 64) 0 {}).clipped then 1
              else 0 } } := by
  unfold dataCallback
  simp only [hdevice, hin, huser, ma_encoder_write_pcm_frames, hok]
  simp
  intro h
  exact absurd h (by simpa using hcount)

theorem sampleCount_eq (frameCount channels len : Nat) (hframes : frameCount < 2 ^ 32)
    (hch : channels < 2 ^ 32) (hlen : len = frameCount * channels) :
    frameCount * channels % 2 ^ 64 = len := by
  have h : frameCount * channels < 2 ^ 32 * 2 ^ 32 := by
    rcases Nat.eq_zero_or_pos channels with h0 | h0
    · subst h0; simp
    · exact Nat.mul_lt_mul'' hframes hch
  rw [hlen]
  exact Nat.mod_eq_of_lt (by simpa using h)

/-! ## Claims about the capture callback -/

/-- C7: for a non-empty batch of 16-bit signed samples that the sink accepts,
`dataCallback` stores `clipped = 1` exactly when some sample has
`|sample| ≥ 32767` (and `0` otherwise), and stores in `peak` the largest
`|sample|` of the batch divided by 32768; in particular a batch with one
sample equal to +32767 or -32767 and all others zero gives `clipped = 1` and
`peak = 32767/32768`. -/
theorem dataCallback_clipped_and_peak (w : World) (a : CallbackArgs) (device : ma_device)
    (samples : List Int) (hdevice : a.device = some device) (huser : device.pUserData = true)
    (hin : a.pInput = some samples) (hok : a.writeResult = MA_SUCCESS)
    (hframes : a.frameCount < 2 ^ 32) (hch : w.state.channels < 2 ^ 32)
    (hlen : samples.length = a.frameCount * w.state.channels) (hne : samples ≠ [])
    (hrange : ∀ s ∈ samples, -32768 ≤ s ∧ s ≤ 32767) :
    ((dataCallback w a).state.clipped = if ∃ s ∈ samples, 32767 ≤ |s| then 1 else 0) ∧
      (∃ m : Int, (∀ s ∈ samples, |s| ≤ m) ∧ (∃ s ∈ samples, |s| = m) ∧
        (dataCallback w a).state.peak = (m : ℚ) / 32768) ∧
      (∀ (pre post : List Int) (x : Int), samples = pre ++ x :: post →
        (x = 32767 ∨ x = -32767) → (∀ s ∈ pre ++ post, s = 0) →
          (dataCallback w a).state.clipped = 1 ∧
            (dataCallback w a).state.peak = (32767 : ℚ) / 32768) := by
  have hcnt := sampleCount_eq a.frameCount w.state.channels samples.length hframes hch hlen
  have hpos : a.frameCount * w.state.channels % 2 ^ 64 ≠ 0 := by
    rw [hcnt]
    exact fun h => hne (List.length_eq_zero.1 h)
  have hclip := foldl_levelStep_clipped samples {}
  obtain ⟨hp0, hpall, hpex⟩ := foldl_levelStep_peak samples {}
  have hbound : |(samples.foldl levelStep {}).peak| ≤ 32768 := by
    rw [abs_of_nonneg hp0]
    rcases hpex with h | ⟨s, hs, h⟩
    · rw [h]; decide
    · rw [← h]
      have := hrange s hs
      exact abs_le.2 ⟨by omega, by omega⟩
  have hpeak : (dataCallback w a).state.peak = ((samples.foldl levelStep {}).peak : ℚ) / 32768 := by
    rw [dataCallback_accepted w a device samples hdevice huser hin hok hpos, hcnt, levelLoop_all]
    exact toFloat_peakNorm _ hbound
  have hclipped :
      (dataCallback w a).state.clipped = if ∃ s ∈ samples, 32767 ≤ |s| then 1 else 0 := by
    rw [dataCallback_accepted w a device samples hdevice huser hin hok hpos, hcnt, levelLoop_all]
    simp only
    by_cases h : ∃ s ∈ samples, 32767 ≤ |s|
    · rw [if_pos h, if_pos (hclip.2 (Or.inr h))]
    · rw [if_neg h, if_neg]
      intro hc
      rcases hclip.1 hc with h' | h'
      · exact absurd h' (by decide)
      · exact h h'
  have hmax : ∃ s ∈ samples, |s| = (samples.foldl levelStep {}).peak := by
    rcases hpex with h | h
    · obtain ⟨x, hx⟩ := List.exists_mem_of_ne_nil samples hne
      refine ⟨x, hx, le_antisymm (hpall x hx) ?_⟩
      rw [h]
      exact abs_nonneg x
    · exact h
  refine ⟨hclipped, ⟨_, hpall, hmax, hpeak⟩, ?_⟩
  intro pre post x hsplit hx hzero
  have hxmem : x ∈ samples := by rw [hsplit]; simp
  have hxabs : |x| = 32767 := by rcases hx with h | h <;> rw [h] <;> rfl
  have hle : ∀ s ∈ samples, |s| ≤ 32767 := by
    intro s hs
    rw [hsplit, List.mem_append, List.mem_cons] at hs
    rcases hs with hs | hs | hs
    · rw [hzero s (List.mem_append_left _ hs)]; decide
    · rw [hs, hxabs]
    · rw [hzero s (List.mem_append_right _ hs)]; decide
  constructor
  · rw [hclipped, if_pos ⟨x, hxmem, by rw [hxabs]⟩]
  · obtain ⟨s, hs, hseq⟩ := hmax
    have h1 : (samples.foldl levelStep {}).peak = 32767 :=
      le_antisymm (hseq ▸ hle s hs) (hxabs ▸ hpall x hxmem)
    rw [hpeak, h1]
    norm_num

/-- Witness of C7 on the batch `[0, -32767, 0]` of a default mono session. -/
theorem dataCallback_clipped_and_peak_witness :
    (dataCallback {} { pInput := some [0, -32767, 0], frameCount := 3 }).state.clipped = 1 ∧
      (dataCallback {} { pInput := some [0, -32767, 0], frameCount := 3 }).state.peak =
        (32767 : ℚ) / 32768 :=
  (dataCallback_clipped_and_peak {} { pInput := some [0, -32767, 0], frameCount := 3 } {}
    [0, -32767, 0] rfl rfl rfl rfl (by decide) (by decide) (by decide) (by decide)
    (by decide)).2.2 [0] [0] (-32767) rfl (Or.inr rfl) (by decide)

/-- C8: for a non-empty batch of zero samples that the sink accepts, and for
every prior telemetry state, `dataCallback` leaves `rms = 0`, `peak = 0` and
`clipped = 0`. -/
theorem dataCallback_silence (w : World) (a : CallbackArgs) (device : ma_device)
    (samples : List Int) (hdevice : a.device = some device) (huser : device.pUserData = true)
    (hin : a.pInput = some samples) (hok : a.writeResult = MA_SUCCESS)
    (hframes : a.frameCount < 2 ^ 32) (hch : w.state.channels < 2 ^ 32)
    (hlen : samples.length = a.frameCount * w.state.channels) (hne : samples ≠ [])
    (hzero : ∀ s ∈ samples, s = 0) :
    (dataCallback w a).state.rms = 0 ∧ (dataCallback w a).state.peak = 0 ∧
      (dataCallback w a).state.clipped = 0 := by
  have hcnt := sampleCount_eq a.frameCount w.state.channels samples.length hframes hch hlen
  have hpos : a.frameCount * w.state.channels % 2 ^ 64 ≠ 0 := by
    rw [hcnt]
    exact fun h => hne (List.length_eq_zero.1 h)
  rw [dataCallback_accepted w a device samples hdevice huser hin hok hpos, hcnt, levelLoop_all,
    foldl_levelStep_zeros samples hzero]
  simp [fdiv, toDouble_zero, toFloat_zero, fsqrt_zero]

/-- Witness of C8: two frames of stereo silence over a state that holds the
levels of a loud earlier batch. -/
theorem dataCallback_silence_witness :
    (dataCallback { state := { channels := 2, bytesPerFrame := 4, rms := 1 / 2, peak := 1, clipped := 1 } }
        { pInput := some [0, 0, 0, 0], frameCount := 2 }).state.rms = 0 ∧
      (dataCallback { state := { channels := 2, bytesPerFrame := 4, rms := 1 / 2, peak := 1, clipped := 1 } }
        { pInput := some [0, 0, 0, 0], frameCount := 2 }).state.peak = 0 ∧
      (dataCallback { state := { channels := 2, bytesPerFrame := 4, rms := 1 / 2, peak := 1, clipped := 1 } }
        { pInput := some [0, 0, 0, 0], frameCount := 2 }).state.clipped = 0 :=
  dataCallback_silence _ _ {} [0, 0, 0, 0] rfl rfl rfl rfl (by decide) (by decide) (by decide)
    (by decide) (by decide)

/-! ## The shape of one invocation -/

theorem reachesSink_iff (a : CallbackArgs) :
    reachesSink a = true ↔
      ∃ device samples, a.device = some device ∧ device.pUserData = true ∧
        a.pInput = some samples := by
  obtain ⟨device, pInput, frameCount, writeResult⟩ := a
  cases device <;> cases pInput <;> simp [reachesSink]

theorem dataCallback_skipped (w : World) (a : CallbackArgs) (h : reachesSink a = false) :
    dataCallback w a = w := by
  obtain ⟨device, pInput, frameCount, writeResult⟩ := a
  cases device <;> cases pInput <;> simp_all [reachesSink, dataCallback]

theorem dataCallback_rejected (w : World) (a : CallbackArgs) (h : reachesSink a = true)
    (hres : a.writeResult ≠ MA_SUCCESS) :
    dataCallback w a =
      { state :=
          { w.state with
            encoder := { writes := w.state.encoder.writes ++ [a.frameCount] }
            lastError := a.writeResult }
        g_shouldQuit := true } := by
  obtain ⟨device, pInput, frameCount, writeResult⟩ := a
  cases device <;> cases pInput <;>
    simp_all [reachesSink, dataCallback, ma_encoder_write_pcm_frames]

theorem dataCallback_accepted_empty (w : World) (a : CallbackArgs) (h : reachesSink a = true)
    (hok : a.writeResult = MA_SUCCESS)
    (hcount : a.frameCount * w.state.channels % 2 ^ 64 = 0) :
    dataCallback w a =
      { w with
        state :=
          { w.state with
            encoder := { writes := w.state.encoder.writes ++ [a.frameCount] }
            totalFrames := (w.state.totalFrames + a.frameCount) % 2 ^ 64
            bytesWritten :=
              (w.state.bytesWritten + a.frameCount * w.state.bytesPerFrame % 2 ^ 64) % 2 ^ 64 } } := by
  obtain ⟨device, pInput, frameCount, writeResult⟩ := a
  have hcount' : frameCount * w.state.channels % 18446744073709551616 = 0 := by simpa using hcount
  cases device <;> cases pInput <;>
    simp_all [reachesSink, dataCallback, ma_encoder_write_pcm_frames]

/-- What an invocation that the sink accepts does to the counters, and what
it leaves alone. -/
theorem dataCallback_accepted_counters (w : World) (a : CallbackArgs) (h : reachesSink a = true)
    (hok : a.writeResult = MA_SUCCESS) :
    (dataCallback w a).state.totalFrames = (w.state.totalFrames + a.frameCount) % 2 ^ 64 ∧
      (dataCallback w a).state.bytesWritten =
        (w.state.bytesWritten + a.frameCount * w.state.bytesPerFrame % 2 ^ 64) % 2 ^ 64 ∧
      (dataCallback w a).state.bytesPerFrame = w.state.bytesPerFrame ∧
      (dataCallback w a).state.channels = w.state.channels ∧
      (dataCallback w a).state.lastError = w.state.lastError ∧
      (dataCallback w a).g_shouldQuit = w.g_shouldQuit ∧
      (dataCallback w a).state.encoder.writes = w.state.encoder.writes ++ [a.frameCount] := by
  by_cases hcount : a.frameCount * w.state.channels % 2 ^ 64 = 0
  · rw [dataCallback_accepted_empty w a h hok hcount]
    simp
  · obtain ⟨device, samples, hd, hu, hi⟩ := (reachesSink_iff a).1 h
    rw [dataCallback_accepted w a device samples hd hu hi hok hcount]
    simp

/-- The sticky error after one invocation: the code of the write when the
write was made and failed, the old value otherwise. -/
theorem dataCallback_lastError (w : World) (a : CallbackArgs) :
    (dataCallback w a).state.lastError =
      if reachesSink a = true ∧ a.writeResult ≠ MA_SUCCESS then a.writeResult
      else w.state.lastError := by
  cases h : reachesSink a
  · rw [dataCallback_skipped w a h]
    simp
  · by_cases hres : a.writeResult = MA_SUCCESS
    · rw [(dataCallback_accepted_counters w a h hres).2.2.2.2.1]
      simp [hres]
    · rw [dataCallback_rejected w a h hres]
      simp [hres]

/-- The invariant `bytesWritten = totalFrames * bytesPerFrame` in `ma_uint64`
arithmetic is kept by every invocation, and `bytesPerFrame` is never written. -/
theorem dataCallback_bytes_invariant (w : World) (a : CallbackArgs)
    (hinv : w.state.bytesWritten = w.state.totalFrames * w.state.bytesPerFrame % 2 ^ 64) :
    (dataCallback w a).state.bytesWritten =
        (dataCallback w a).state.totalFrames * (dataCallback w a).state.bytesPerFrame % 2 ^ 64 ∧
      (dataCallback w a).state.bytesPerFrame = w.state.bytesPerFrame := by
  cases h : reachesSink a
  · rw [dataCallback_skipped w a h]
    exact ⟨hinv, rfl⟩
  · by_cases hres : a.writeResult = MA_SUCCESS
    · obtain ⟨h1, h2, h3, -⟩ := dataCallback_accepted_counters w a h hres
      refine ⟨?_, h3⟩
      rw [h1, h2, h3, hinv]
      conv_rhs => rw [Nat.mul_mod, Nat.mod_mod, ← Nat.mul_mod, Nat.add_mul, Nat.add_mod]
    · rw [dataCallback_rejected w a h hres]
      exact ⟨hinv, rfl⟩

theorem runCallbacks_bytes_invariant (invocations : List CallbackArgs) :
    ∀ w : World,
      w.state.bytesWritten = w.state.totalFrames * w.state.bytesPerFrame % 2 ^ 64 →
        (runCallbacks w invocations).state.bytesWritten =
            (runCallbacks w invocations).state.totalFrames *
              (runCallbacks w invocations).state.bytesPerFrame % 2 ^ 64 ∧
          (runCallbacks w invocations).state.bytesPerFrame = w.state.bytesPerFrame := by
  induction invocations with
  | nil => intro w h; exact ⟨h, rfl⟩
  | cons a rest ih =>
    intro w h
    obtain ⟨h1, h2⟩ := dataCallback_bytes_invariant w a h
    obtain ⟨h3, h4⟩ := ih (dataCallback w a) h1
    exact ⟨h3, h4.trans h2⟩

/-- The counters after `n` invocations with the same frame count, all
accepted by the sink. -/
theorem runCallbacks_replicate (a : CallbackArgs) (h : reachesSink a = true)
    (hok : a.writeResult = MA_SUCCESS) (n : Nat) :
    ∀ w : World, w.state.totalFrames < 2 ^ 64 → w.state.bytesWritten < 2 ^ 64 →
      (runCallbacks w (List.replicate n a)).state.totalFrames =
          (w.state.totalFrames + n * a.frameCount) % 2 ^ 64 ∧
        (runCallbacks w (List.replicate n a)).state.bytesWritten =
          (w.state.bytesWritten + n * (a.frameCount * w.state.bytesPerFrame)) % 2 ^ 64 ∧
        (runCallbacks w (List.replicate n a)).state.bytesPerFrame = w.state.bytesPerFrame := by
  induction n with
  | zero =>
    intro w ht hb
    refine ⟨?_, ?_, rfl⟩
    · simpa [runCallbacks] using (Nat.mod_eq_of_lt ht).symm
    · simpa [runCallbacks] using (Nat.mod_eq_of_lt hb).symm
  | succ n ih =>
    intro w _ _
    obtain ⟨h1, h2, h3, -⟩ := dataCallback_accepted_counters w a h hok
    obtain ⟨i1, i2, i3⟩ :=
      ih (dataCallback w a) (by rw [h1]; exact Nat.mod_lt _ (by norm_num))
        (by rw [h2]; exact Nat.mod_lt _ (by norm_num))
    have e : runCallbacks w (List.replicate (n + 1) a)
        = runCallbacks (dataCallback w a) (List.replicate n a) := by
      simp [runCallbacks, List.replicate_succ]
    rw [e, i1, i2, i3, h1, h2, h3]
    refine ⟨?_, ?_, rfl⟩
    · rw [Nat.add_mul, Nat.one_mul]
      omega
    · rw [Nat.add_mul, Nat.one_mul]
      omega

/-! ## Claims about the counters and the sticky error -/

/-- C3 as stated fails: in a default session (2 bytes per frame) that starts
from zero counters, after `2 ^ 31 + 1` accepted batches of `2 ^ 32 - 1` frames
the `ma_uint64` byte counter has wrapped, so `bytesWritten` is `4294967294`
while `totalFrames * bytesPerFrame` is `2 ^ 64 + 4294967294`. -/
theorem bytesWritten_wraps :
    (runCallbacks {} longSession).state.totalFrames = 9223372039002259455 ∧
      (runCallbacks {} longSession).state.bytesPerFrame = 2 ∧
      (runCallbacks {} longSession).state.bytesWritten = 4294967294 ∧
      (runCallbacks {} longSession).state.bytesWritten ≠
        (runCallbacks {} longSession).state.totalFrames *
          (runCallbacks {} longSession).state.bytesPerFrame := by
  obtain ⟨h1, h2, h3⟩ :=
    runCallbacks_replicate
      { pInput := some (List.replicate (2 ^ 32 - 1) 0), frameCount := 2 ^ 32 - 1 } rfl rfl
      (2 ^ 31 + 1) {} (by decide) (by decide)
  have e1 : (runCallbacks {} longSession).state.totalFrames = 9223372039002259455 := by
    rw [longSession, h1]
    decide
  have e2 : (runCallbacks {} longSession).state.bytesWritten = 4294967294 := by
    rw [longSession, h2]
    decide
  have e3 : (runCallbacks {} longSession).state.bytesPerFrame = 2 := by
    rw [longSession, h3]
  refine ⟨e1, e3, e2, ?_⟩
  rw [e1, e2, e3]
  decide

/-- C3, amended: starting from zero counters, after every finite sequence of
`dataCallback` invocations (any frame counts, any sink results)
`bytesWritten = (totalFrames * bytesPerFrame) mod 2 ^ 64`, with
`bytesPerFrame` the session's; hence `bytesWritten = totalFrames * bytesPerFrame`
whenever that product is below `2 ^ 64`. -/
theorem bytesWritten_eq_totalFrames_mul_mod (w : World) (invocations : List CallbackArgs)
    (htf : w.state.totalFrames = 0) (hbw : w.state.bytesWritten = 0) :
    (runCallbacks w invocations).state.bytesWritten =
        (runCallbacks w invocations).state.totalFrames *
          (runCallbacks w invocations).state.bytesPerFrame % 2 ^ 64 ∧
      (runCallbacks w invocations).state.bytesPerFrame = w.state.bytesPerFrame ∧
      ((runCallbacks w invocations).state.totalFrames *
          (runCallbacks w invocations).state.bytesPerFrame < 2 ^ 64 →
        (runCallbacks w invocations).state.bytesWritten =
          (runCallbacks w invocations).state.totalFrames *
            (runCallbacks w invocations).state.bytesPerFrame) := by
  have h0 : w.state.bytesWritten = w.state.totalFrames * w.state.bytesPerFrame % 2 ^ 64 := by
    rw [htf, hbw]
    simp
  obtain ⟨h1, h2⟩ := runCallbacks_bytes_invariant invocations w h0
  refine ⟨h1, h2, fun hlt => ?_⟩
  rw [Nat.mod_eq_of_lt hlt] at h1
  exact h1

/-- Witness of C3 (amended): an accepted batch, a rejected one and another
accepted one, from the initial state of a default session. -/
theorem bytesWritten_eq_totalFrames_mul_mod_witness :
    (runCallbacks {} [silence, { silence with writeResult := -1 }, silence]).state.bytesWritten =
        (runCallbacks {} [silence, { silence with writeResult := -1 }, silence]).state.totalFrames *
          (runCallbacks {} [silence, { silence with writeResult := -1 }, silence]).state.bytesPerFrame
            % 2 ^ 64 ∧
      (runCallbacks {} [silence, { silence with writeResult := -1 }, silence]).state.bytesPerFrame =
        2 :=
  ⟨(bytesWritten_eq_totalFrames_mul_mod {} _ rfl rfl).1,
    (bytesWritten_eq_totalFrames_mul_mod {} _ rfl rfl).2.1⟩

/-- C5 as stated fails: for a non-null batch of zero frames `dataCallback`
does call the sink, and when that write fails with code `-1` it stores `-1` in
`lastError` and sets the quit signal. -/
theorem dataCallback_empty_batch_reaches_sink :
    (dataCallback {} { pInput := some [], frameCount := 0, writeResult := -1 }).state.encoder.writes
        = [0] ∧
      (dataCallback {} { pInput := some [], frameCount := 0, writeResult := -1 }).state.lastError
        = -1 ∧
      (dataCallback {} { pInput := some [], frameCount := 0, writeResult := -1 }).g_shouldQuit
        = true ∧
      (({} : World).state.lastError = MA_SUCCESS ∧ ({} : World).g_shouldQuit = false) := by
  rw [dataCallback_rejected {} { pInput := some [], frameCount := 0, writeResult := -1 } rfl
    (by decide)]
  exact ⟨rfl, rfl, rfl, rfl, rfl⟩

/-- C5, amended: for a null batch `dataCallback` returns silently, without
calling the sink and leaving the whole state (and the quit signal) unchanged.
For a non-null batch of zero frames it does call the sink, with frame count
0: when that write succeeds, `totalFrames`, `bytesWritten`, `rms`, `peak`,
`clipped`, `lastError` and the quit signal are all unchanged; when it fails,
the code is stored in `lastError` and the quit signal is set, the other five
fields being unchanged. -/
theorem dataCallback_null_or_empty (w : World) (a : CallbackArgs)
    (htf : w.state.totalFrames < 2 ^ 64) (hbw : w.state.bytesWritten < 2 ^ 64) :
    (a.pInput = none → dataCallback w a = w) ∧
      (a.frameCount = 0 → reachesSink a = true →
        (dataCallback w a).state.encoder.writes = w.state.encoder.writes ++ [0]) ∧
      (a.frameCount = 0 → a.writeResult = MA_SUCCESS →
        (dataCallback w a).state.totalFrames = w.state.totalFrames ∧
          (dataCallback w a).state.bytesWritten = w.state.bytesWritten ∧
          (dataCallback w a).state.rms = w.state.rms ∧
          (dataCallback w a).state.peak = w.state.peak ∧
          (dataCallback w a).state.clipped = w.state.clipped ∧
          (dataCallback w a).state.lastError = w.state.lastError ∧
          (dataCallback w a).g_shouldQuit = w.g_shouldQuit) ∧
      (a.frameCount = 0 → reachesSink a = true → a.writeResult ≠ MA_SUCCESS →
        (dataCallback w a).state.lastError = a.writeResult ∧
          (dataCallback w a).g_shouldQuit = true ∧
          (dataCallback w a).state.totalFrames = w.state.totalFrames ∧
          (dataCallback w a).state.bytesWritten = w.state.bytesWritten ∧
          (dataCallback w a).state.rms = w.state.rms ∧
          (dataCallback w a).state.peak = w.state.peak ∧
          (dataCallback w a).state.clipped = w.state.clipped) := by
  refine ⟨?_, ?_, ?_, ?_⟩
  · intro hnull
    apply dataCallback_skipped
    obtain ⟨device, pInput, frameCount, writeResult⟩ := a
    cases device <;> simp_all [reachesSink]
  · intro hzero hreach
    by_cases hres : a.writeResult = MA_SUCCESS
    · rw [(dataCallback_accepted_counters w a hreach hres).2.2.2.2.2.2, hzero]
    · rw [dataCallback_rejected w a hreach hres, hzero]
  · intro hzero hres
    cases hreach : reachesSink a
    · rw [dataCallback_skipped w a hreach]
      exact ⟨rfl, rfl, rfl, rfl, rfl, rfl, rfl⟩
    · rw [dataCallback_accepted_empty w a hreach hres (by rw [hzero]; simp), hzero]
      refine ⟨?_, ?_, rfl, rfl, rfl, rfl, rfl⟩
      · simpa using Nat.mod_eq_of_lt htf
      · simpa using Nat.mod_eq_of_lt hbw
  · intro _ hreach hres
    rw [dataCallback_rejected w a hreach hres]
    exact ⟨rfl, rfl, rfl, rfl, rfl, rfl, rfl⟩

/-- Witness of C5 (amended): a null batch announced with 5 frames over a sink
that would fail, and an empty non-null batch over a sink that succeeds, both
on the initial state of a default session. -/
theorem dataCallback_null_or_empty_witness :
    dataCallback {} { pInput := none, frameCount := 5, writeResult := -1 } = {} ∧
      (dataCallback {} { pInput := some [], frameCount := 0 }).state.encoder.writes = [] ++ [0] ∧
      (dataCallback {} { pInput := some [], frameCount := 0 }).state.lastError = MA_SUCCESS ∧
      (dataCallback {} { pInput := some [], frameCount := 0 }).g_shouldQuit = false :=
  ⟨(dataCallback_null_or_empty {} { pInput := none, frameCount := 5, writeResult := -1 }
      (by decide) (by decide)).1 rfl,
    (dataCallback_null_or_empty {} { pInput := some [], frameCount := 0 }
      (by decide) (by decide)).2.1 rfl rfl,
    ((dataCallback_null_or_empty {} { pInput := some [], frameCount := 0 }
      (by decide) (by decide)).2.2.1 rfl rfl).2.2.2.2.2.1,
    ((dataCallback_null_or_empty {} { pInput := some [], frameCount := 0 }
      (by decide) (by decide)).2.2.1 rfl rfl).2.2.2.2.2.2⟩

/-- C6: once `lastError` holds a non-success code it is never cleared: after
any further sequence of `dataCallback` invocations, with any batches and any
sink results, `lastError` is still a non-success code. -/
theorem lastError_never_cleared (w : World) (invocations : List CallbackArgs)
    (h : w.state.lastError ≠ MA_SUCCESS) :
    (runCallbacks w invocations).state.lastError ≠ MA_SUCCESS := by
  induction invocations generalizing w with
  | nil => exact h
  | cons a rest ih =>
    apply ih (dataCallback w a)
    rw [dataCallback_lastError]
    split_ifs with hc
    · exact hc.2
    · exact h

/-- Witness of C6: after a write failed with `-1`, an accepted batch, a null
batch and a signal-free rest leave `lastError` a non-success code. -/
theorem lastError_never_cleared_witness :
    (dataCallback {} { silence with writeResult := -1 }).state.lastError ≠ MA_SUCCESS ∧
      (runCallbacks (dataCallback {} { silence with writeResult := -1 })
        [silence, { pInput := none }, silence]).state.lastError ≠ MA_SUCCESS :=
  have h : (dataCallback {} { silence with writeResult := -1 }).state.lastError ≠ MA_SUCCESS := by
    rw [dataCallback_rejected {} { silence with writeResult := -1 } rfl (by decide)]
    decide
  ⟨h, lastError_never_cleared _ [silence, { pInput := none }, silence] h⟩

/-- C9: when the invocation reaches the sink (device, user data and batch
non-null) and the write fails with code `c`, `dataCallback` stores `c` in
`lastError`, sets the quit signal, and leaves `totalFrames`, `bytesWritten`,
`rms`, `peak` and `clipped` exactly as they were. -/
theorem dataCallback_append_failure (w : World) (a : CallbackArgs) (device : ma_device)
    (samples : List Int) (c : Int) (hdevice : a.device = some device)
    (huser : device.pUserData = true) (hin : a.pInput = some samples)
    (hres : a.writeResult = c) (hc : c ≠ MA_SUCCESS) :
    (dataCallback w a).state.lastError = c ∧ (dataCallback w a).g_shouldQuit = true ∧
      (dataCallback w a).state.totalFrames = w.state.totalFrames ∧
      (dataCallback w a).state.bytesWritten = w.state.bytesWritten ∧
      (dataCallback w a).state.rms = w.state.rms ∧
      (dataCallback w a).state.peak = w.state.peak ∧
      (dataCallback w a).state.clipped = w.state.clipped := by
  have hreach : reachesSink a = true := (reachesSink_iff a).2 ⟨device, samples, hdevice, huser, hin⟩
  rw [dataCallback_rejected w a hreach (hres ▸ hc)]
  exact ⟨hres, rfl, rfl, rfl, rfl, rfl, rfl⟩

/-- Witness of C9: a full-scale batch whose write fails with `-3`, on a state
that already holds counters and levels. -/
theorem dataCallback_append_failure_witness :
    (dataCallback
        { state := { totalFrames := 320, bytesWritten := 640, rms := 1 / 4, peak := 1 / 2 } }
        { pInput := some [32767, -32768], frameCount := 2, writeResult := -3 }).state.lastError
        = -3 ∧
      (dataCallback
        { state := { totalFrames := 320, bytesWritten := 640, rms := 1 / 4, peak := 1 / 2 } }
        { pInput := some [32767, -32768], frameCount := 2, writeResult := -3 }).state.totalFrames
        = 320 :=
  have h :=
    dataCallback_append_failure
      { state := { totalFrames := 320, bytesWritten := 640, rms := 1 / 4, peak := 1 / 2 } }
      { pInput := some [32767, -32768], frameCount := 2, writeResult := -3 } {} [32767, -32768]
      (-3) rfl rfl rfl rfl (by decide)
  ⟨h.1, h.2.2.1⟩

/-- C10 as stated fails: after a write failed with `-1`, a later write that
fails with `-2` leaves `lastError = -2`, not `-1`. -/
theorem lastError_overwritten :
    (dataCallback {} { silence with writeResult := -1 }).state.lastError = -1 ∧
      (dataCallback (dataCallback {} { silence with writeResult := -1 })
        { silence with writeResult := -2 }).state.lastError = -2 := by
  rw [dataCallback_rejected _ { silence with writeResult := -2 } rfl (by decide),
    dataCallback_rejected {} { silence with writeResult := -1 } rfl (by decide)]
  exact ⟨rfl, rfl⟩

/-- C10, amended: the sticky error holds the code of the latest failed write.
An invocation that makes no write, or whose write succeeds, leaves `lastError`
as it was; an invocation whose write fails with a code stores that code,
whatever `lastError` held before. -/
theorem lastError_latest_failure (w : World) (a : CallbackArgs) :
    (dataCallback w a).state.lastError =
      if reachesSink a = true ∧ a.writeResult ≠ MA_SUCCESS then a.writeResult
      else w.state.lastError :=
  dataCallback_lastError w a

/-! ## The control loop -/

theorem mem_ite_singleton {b : Bool} {x c : Call} (h : c ∈ (if b = true then [x] else [])) :
    c = x := by
  cases b <;> simp_all

/-- The control loop itself performs no miniaudio call: all it does is emit
events. -/
theorem controlLoop_calls (options : Options) (ticks : List Tick) :
    ∀ (w : World) (lastProgressAt lastLevelAt : Int),
      ∀ c ∈ (controlLoop options ticks w lastProgressAt lastLevelAt).calls,
        ∃ e, c = Call.emitJsonLine e := by
  induction ticks with
  | nil => intro w p l c hc; simp [controlLoop] at hc
  | cons t ticks ih =>
    intro w p l c hc
    unfold controlLoop at hc
    simp only at hc
    by_cases hq : (applyEnv w t.beforeQuitCheck).g_shouldQuit = true
    · rw [if_pos hq] at hc
      simp at hc
    · rw [if_neg hq] at hc
      by_cases he :
          (applyEnv (applyEnv w t.beforeQuitCheck) t.beforeErrorCheck).state.lastError ≠ MA_SUCCESS
      · rw [if_pos he] at hc
        exact ⟨_, List.mem_singleton.1 hc⟩
      · rw [if_neg he] at hc
        simp only [List.mem_append] at hc
        rcases hc with (hc | hc) | hc
        · exact ⟨_, mem_ite_singleton hc⟩
        · exact ⟨_, mem_ite_singleton hc⟩
        · exact ih _ _ _ c hc

/-- The shape of every run in which `ma_device_start` succeeded: the setup
calls (none of which closes the encoder), the start, the events of the
control loop, and, once the loop is left, the four shutdown calls in the order of
the source, with exit status 0. -/
theorem main_started (env : Env) (h : Call.ma_device_start MA_SUCCESS ∈ (main env).calls) :
    ∃ setup loop : List Call,
      Call.ma_encoder_uninit ∉ setup ∧ (∀ c ∈ loop, ∃ e, c = Call.emitJsonLine e) ∧
        (((main env).calls = setup ++ Call.ma_device_start MA_SUCCESS :: loop ∧
            (main env).exit = none) ∨
          ((main env).calls =
              setup ++ Call.ma_device_start MA_SUCCESS :: loop ++
                [Call.ma_device_stop, Call.ma_device_uninit, Call.ma_encoder_uninit,
                  Call.ma_context_uninit] ∧
            (main env).exit = some 0)) := by
  unfold main at h ⊢
  cases hparse : env.parseArgs with
  | none => simp [hparse] at h
  | some options =>
    simp only [hparse] at h ⊢
    by_cases hlist : options.listDevices = true
    · rw [if_pos hlist] at h
      split_ifs at h <;> simp at h
    rw [if_neg hlist] at h ⊢
    by_cases hbit : options.bitDepth ≠ 16
    · rw [if_pos hbit] at h
      simp at h
    rw [if_neg hbit] at h ⊢
    by_cases hctx : env.ma_context_init ≠ MA_SUCCESS
    · rw [if_pos hctx] at h
      simp [emitError] at h
    rw [if_neg hctx] at h ⊢
    generalize hres : (!(resolveDeviceChoice options env.utf8ToWasapiId).hasId &&
      (resolveDeviceChoice options env.utf8ToWasapiId).hasIndex) = resolves at h ⊢
    generalize hpre : (Call.ma_context_init env.ma_context_init ::
        if resolves = true then
          [Call.resolveDeviceIdFromIndex (resolveDeviceChoice options env.utf8ToWasapiId).index
            env.resolveDeviceIdFromIndex]
        else []) = pre0 at h ⊢
    have hpre_e : Call.ma_encoder_uninit ∉ pre0 := by
      rw [← hpre]
      cases resolves <;> simp
    have hpre_s : Call.ma_device_start MA_SUCCESS ∉ pre0 := by
      rw [← hpre]
      cases resolves <;> simp
    by_cases h1 : (resolves && decide (env.resolveDeviceIdFromIndex ≠ MA_SUCCESS)) = true
    · rw [if_pos h1] at h
      simp [emitError, hpre_s] at h
    rw [if_neg h1] at h ⊢
    by_cases h2 : env.ma_encoder_init_file ≠ MA_SUCCESS
    · rw [if_pos h2] at h
      simp [emitError, hpre_s] at h
    rw [if_neg h2] at h ⊢
    by_cases h3 : env.ma_device_init ≠ MA_SUCCESS
    · rw [if_pos h3] at h
      simp [emitError, hpre_s] at h
    rw [if_neg h3] at h ⊢
    by_cases h4 : env.ma_device_start ≠ MA_SUCCESS
    · rw [if_pos h4] at h
      simp [emitError, hpre_s] at h
      exact absurd h.symm h4
    rw [if_neg h4] at h ⊢
    have hs : env.ma_device_start = MA_SUCCESS := not_not.1 h4
    have hl :=
      controlLoop_calls options env.ticks
        { state :=
            { sampleRate := options.sampleRate
              channels := options.channels
              bytesPerFrame := options.channels * (options.bitDepth / 8) % 2 ^ 32 } }
        env.lastProgressAt env.lastLevelAt
    generalize controlLoop options env.ticks
        { state :=
            { sampleRate := options.sampleRate
              channels := options.channels
              bytesPerFrame := options.channels * (options.bitDepth / 8) % 2 ^ 32 } }
        env.lastProgressAt env.lastLevelAt = loop at h hl ⊢
    refine ⟨pre0 ++ [Call.ma_encoder_init_file env.ma_encoder_init_file] ++
        [Call.ma_device_init env.ma_device_init] ++
        [Call.emitJsonLine (Event.format options.sampleRate options.channels)],
      loop.calls, ?_, hl, ?_⟩
    · simp [hpre_e]
    · by_cases hex : loop.exited = true
      · right
        rw [if_pos hex]
        simp [hs]
      · left
        rw [if_neg hex]
        simp [hs]

theorem first_occurrence_splits {x : Call} {before after pre post : List Call}
    (hx : x ∉ before) (h : before ++ x :: after = pre ++ x :: post) :
    ∃ more, pre = before ++ more := by
  rcases List.append_eq_append_iff.1 h with ⟨more, h1, _⟩ | ⟨more, h1, h2⟩
  · exact ⟨more, h1⟩
  · cases more with
    | nil => exact ⟨[], by simpa using h1.symm⟩
    | cons y ys =>
      have hy : x = y := by
        have := congrArg List.head? h2
        simpa using this
      exact absurd (by rw [h1, hy]; simp) hx

theorem dataCallback_quit_stays (w : World) (a : CallbackArgs) (h : w.g_shouldQuit = true) :
    (dataCallback w a).g_shouldQuit = true := by
  cases hreach : reachesSink a
  · rw [dataCallback_skipped w a hreach]
    exact h
  · by_cases hres : a.writeResult = MA_SUCCESS
    · rw [(dataCallback_accepted_counters w a hreach hres).2.2.2.2.2.1]
      exact h
    · rw [dataCallback_rejected w a hreach hres]

theorem applyEnv_cons (w : World) (e : EnvEvent) (events : List EnvEvent) :
    applyEnv w (e :: events) =
      applyEnv
        (match e with
        | EnvEvent.callback args => dataCallback w args
        | EnvEvent.signal => onSignal w)
        events := by
  simp [applyEnv]

theorem applyEnv_quit_stays (events : List EnvEvent) :
    ∀ w : World, w.g_shouldQuit = true → (applyEnv w events).g_shouldQuit = true := by
  induction events with
  | nil => intro w h; exact h
  | cons e events ih =>
    intro w h
    rw [applyEnv_cons]
    apply ih
    cases e with
    | callback args => exact dataCallback_quit_stays w args h
    | signal => rfl

/-- A failed write anywhere in a stretch of callback activity leaves the quit
signal set at the end of the stretch. -/
theorem applyEnv_failure_sets_quit (events : List EnvEvent) (a : CallbackArgs)
    (hreach : reachesSink a = true) (hres : a.writeResult ≠ MA_SUCCESS) :
    ∀ w : World, EnvEvent.callback a ∈ events → (applyEnv w events).g_shouldQuit = true := by
  induction events with
  | nil => intro w h; simp at h
  | cons e events ih =>
    intro w h
    rw [applyEnv_cons]
    rcases List.mem_cons.1 h with h | h
    · subst h
      apply applyEnv_quit_stays
      simp only
      rw [dataCallback_rejected w a hreach hres]
    · exact ih _ h

/-- Whenever a write fails before the loop's load of `g_shouldQuit` (in
particular during the 20 ms sleep), that pass leaves the loop without
emitting anything: the `lastError` check and its `emitError` are not reached. -/
theorem controlLoop_failure_before_quit_check (options : Options) (t : Tick) (ticks : List Tick)
    (w : World) (lastProgressAt lastLevelAt : Int) (a : CallbackArgs)
    (hmem : EnvEvent.callback a ∈ t.beforeQuitCheck) (hreach : reachesSink a = true)
    (hres : a.writeResult ≠ MA_SUCCESS) :
    (controlLoop options (t :: ticks) w lastProgressAt lastLevelAt).calls = [] ∧
      (controlLoop options (t :: ticks) w lastProgressAt lastLevelAt).exited = true := by
  have hq := applyEnv_failure_sets_quit t.beforeQuitCheck a hreach hres w hmem
  unfold controlLoop
  simp only [hq, if_true, and_self]

/-- Every run that started the device either is still polling or returns 0:
no path after `ma_device_start` returns a non-zero status. -/
theorem main_exit_of_started (env : Env)
    (h : Call.ma_device_start MA_SUCCESS ∈ (main env).calls) :
    (main env).exit = none ∨ (main env).exit = some 0 := by
  obtain ⟨_, _, _, _, hcalls | hcalls⟩ := main_started env h
  · exact Or.inl hcalls.2
  · exact Or.inr hcalls.2

/-- The `error` event is emitted when the failed write lands between the
loop's load of `g_shouldQuit` and its load of `lastError`. -/
theorem sink_failure_between_loads :
    errorEvents
        (main
          { ticks :=
              [{ beforeErrorCheck := [EnvEvent.callback { silence with writeResult := -1 }] }] }).calls
        = 1 ∧
      (main
          { ticks :=
              [{ beforeErrorCheck := [EnvEvent.callback { silence with writeResult := -1 }] }] }).exit
        = some 0 := by
  decide

/-! ## Claims about `main` -/

/-- C4: in every run of `main` in which `ma_device_start` succeeded, wherever
`ma_encoder_uninit` (the close of the Frame Sink) occurs among the calls of
the run, the calls before it contain the successful start and, after that
start, `ma_device_stop`.  This holds for every environment, so for a shutdown
caused by a signal as for one caused by a failed write. -/
theorem device_stop_precedes_encoder_uninit (env : Env) (pre post : List Call)
    (hstart : Call.ma_device_start MA_SUCCESS ∈ (main env).calls)
    (hsplit : (main env).calls = pre ++ Call.ma_encoder_uninit :: post) :
    ∃ setup running,
      pre = setup ++ Call.ma_device_start MA_SUCCESS :: running ∧
        Call.ma_device_stop ∈ running := by
  obtain ⟨setup, loop, hsetup, hloop, hcalls | hcalls⟩ := main_started env hstart
  · exfalso
    have hmem : Call.ma_encoder_uninit ∈ (main env).calls := by rw [hsplit]; simp
    rw [hcalls.1, List.mem_append, List.mem_cons] at hmem
    rcases hmem with hmem | hmem | hmem
    · exact hsetup hmem
    · cases hmem
    · obtain ⟨e, he⟩ := hloop _ hmem
      cases he
  · have hnot : Call.ma_encoder_uninit ∉
        setup ++ Call.ma_device_start MA_SUCCESS :: loop ++
          [Call.ma_device_stop, Call.ma_device_uninit] := by
      intro hmem
      simp only [List.mem_append, List.mem_cons, List.mem_singleton, List.not_mem_nil,
        or_false] at hmem
      rcases hmem with (hmem | hmem | hmem) | hmem | hmem
      · exact hsetup hmem
      · cases hmem
      · obtain ⟨e, he⟩ := hloop _ hmem
        cases he
      · cases hmem
      · cases hmem
    have heq : (setup ++ Call.ma_device_start MA_SUCCESS :: loop ++
          [Call.ma_device_stop, Call.ma_device_uninit]) ++
          Call.ma_encoder_uninit :: [Call.ma_context_uninit] =
        pre ++ Call.ma_encoder_uninit :: post := by
      rw [← hsplit, hcalls.1]
      simp
    obtain ⟨more, hmore⟩ := first_occurrence_splits hnot heq
    refine ⟨setup, loop ++ [Call.ma_device_stop, Call.ma_device_uninit] ++ more, ?_, ?_⟩
    · rw [hmore]
      simp
    · simp

/-- Witness of C4: the session `cancelEnv`, stopped by a signal with no sink
failure; its calls are spelled out. -/
theorem device_stop_precedes_encoder_uninit_witness :
    Call.ma_device_start MA_SUCCESS ∈ (main cancelEnv).calls ∧
      (main cancelEnv).calls =
        [Call.ma_context_init 0, Call.ma_encoder_init_file 0, Call.ma_device_init 0,
          Call.emitJsonLine (Event.format 16000 1), Call.ma_device_start 0, Call.ma_device_stop,
          Call.ma_device_uninit] ++ Call.ma_encoder_uninit :: [Call.ma_context_uninit] ∧
      ∃ setup running,
        [Call.ma_context_init 0, Call.ma_encoder_init_file 0, Call.ma_device_init 0,
          Call.emitJsonLine (Event.format 16000 1), Call.ma_device_start 0, Call.ma_device_stop,
          Call.ma_device_uninit] = setup ++ Call.ma_device_start MA_SUCCESS :: running ∧
        Call.ma_device_stop ∈ running :=
  ⟨by decide, by decide,
    device_stop_precedes_encoder_uninit cancelEnv _ [Call.ma_context_uninit] (by decide)
      (by decide)⟩

/-- C1, evaluated on `sinkFailureEnv`: the device is started, the write of
the second batch fails with `-1` while the control loop sleeps, and the loop
then sees `g_shouldQuit` first: the run shuts down having emitted the
`format` event and no `error` event at all. -/
theorem sink_failure_emits_no_error_event :
    (main sinkFailureEnv).calls =
        [Call.ma_context_init 0, Call.ma_encoder_init_file 0, Call.ma_device_init 0,
          Call.emitJsonLine (Event.format 16000 1), Call.ma_device_start 0, Call.ma_device_stop,
          Call.ma_device_uninit, Call.ma_encoder_uninit, Call.ma_context_uninit] ∧
      (main sinkFailureEnv).world.state.lastError = -1 ∧
      (main sinkFailureEnv).world.g_shouldQuit = true ∧
      errorEvents (main sinkFailureEnv).calls = 0 := by
  decide

/-- C2, evaluated on `sinkFailureEnv`: the session reaches the control loop,
a write fails (`lastError = -1` at the end), and `main` returns 0. -/
theorem sink_failure_exits_zero :
    Call.ma_device_start MA_SUCCESS ∈ (main sinkFailureEnv).calls ∧
      (main sinkFailureEnv).world.state.lastError ≠ MA_SUCCESS ∧
      (main sinkFailureEnv).exit = some 0 := by
  decide

end MiniaudioLoopback
